import Mathlib

/-!
Verification of the StreetEasy apartment tracker (apartment_tracker.py).

This file shallowly embeds the fetch / extract / deduplicate pipeline of the
source file and proves the specified properties about it.

Modelling conventions:
  * BeautifulSoup selector queries are embedded as the data a card can yield:
    a `Card` holds, for each selector the code queries, the result that the
    query would return (`none` when the selector matches nothing).  The texts
    stored are the raw element texts; `get_text(strip=True)` is modelled by
    applying `String.trim` at the points where the code calls it.
  * The md5 hash (`hashlib.md5(...).hexdigest()`) is kept abstract: every
    definition and theorem is parametric in a `hash : String → String`
    function.  The code applies the hash to exactly the concatenation
    `title ++ "_" ++ address ++ "_" ++ price`, which is what the claims are
    about; md5 itself is an opaque deterministic function of its input.
  * The SQLite store (table `apartments`, `id TEXT PRIMARY KEY`) is embedded
    as a list of rows; `INSERT OR IGNORE` is an append guarded by a key
    check, `SELECT id ... WHERE id = ?` is a key lookup.  The server-assigned
    `first_seen` timestamp is outside the model.
  * `requests` responses are embedded as a `status_code` plus the page
    content, already split into cards; a transport-level
    `RequestException` during one attempt is `none` in the attempt oracle.
    `random.choice` over the user-agent pool and the randomized delays are
    modelled by an oracle `choice` giving the index picked at each attempt
    (delays have no observable effect on the values computed).
-/

/-- Whether `pre` is a leading block of `l` (character lists). -/
def listLeads : List Char → List Char → Bool
  | [], _ => true
  | _ :: _, [] => false
  | a :: ta, b :: tb => a == b && listLeads ta tb

/-- Whether `needle` occurs as a contiguous block inside `hay`. -/
def hasSubList (needle : List Char) : List Char → Bool
  | [] => needle.isEmpty
  | c :: rest => listLeads needle (c :: rest) || hasSubList needle rest

/-- Python's `needle in hay` substring test. -/
def containsStr (hay needle : String) : Bool :=
  hasSubList needle.toList hay.toList

/-- Drop leading and trailing whitespace: Python's `s.strip()` (also used to
model `get_text(strip=True)`). -/
def pyStrip (l : List Char) : List Char :=
  ((l.dropWhile Char.isWhitespace).reverse.dropWhile Char.isWhitespace).reverse

/-- String-level `s.strip()`. -/
def strTrim (s : String) : String := String.mk (pyStrip s.toList)

/-- Python's `s.startswith(p)`. -/
def strStartsWith (s p : String) : Bool := listLeads p.toList s.toList

/-- ASCII lower-casing of one character (the only case Python's `.lower()`
exercises on this data). -/
def lowerChar (c : Char) : Char :=
  if c.isUpper then Char.ofNat (c.toNat + 32) else c

/-- Python's `s.lower()`. -/
def strLower (s : String) : String := String.mk (s.toList.map lowerChar)

/-- Characters before the first occurrence of `sep`; the whole list when
`sep` does not occur.  This is Python's `s.split(sep)[0]`. -/
def beforeFirst (sep : List Char) : List Char → List Char
  | [] => []
  | c :: rest =>
    if listLeads sep (c :: rest) then [] else c :: beforeFirst sep rest

/-- String-level `s.split(sep)[0]`. -/
def strBefore (s sep : String) : String :=
  String.mk (beforeFirst sep.toList s.toList)

/-- Accumulator pass of whitespace tokenisation. -/
def wsSplitAux : List Char → List Char → List (List Char)
  | acc, [] => if acc.isEmpty then [] else [acc.reverse]
  | acc, c :: rest =>
    if c.isWhitespace then
      if acc.isEmpty then wsSplitAux [] rest
      else acc.reverse :: wsSplitAux [] rest
    else wsSplitAux (c :: acc) rest

/-- Python's `s.split()`: split on whitespace runs, dropping empty pieces. -/
def splitWs (s : String) : List String :=
  (wsSplitAux [] s.toList).map String.mk

/-- Python's `' '.join(parts)`. -/
def joinSpace : List String → String
  | [] => ""
  | [t] => t
  | t :: rest => t ++ " " ++ joinSpace rest

/-- First selector hit in an ordered cascade (the `for ...: if elem: break`
loops of the source). -/
def firstSome : List (Option String) → Option String
  | [] => none
  | some t :: _ => some t
  | none :: rest => firstSome rest

/-- Characters matched by `[\d,]` in the price regex. -/
def moneyChar (c : Char) : Bool := c.isDigit || c == ','

/-- Leftmost match of the regex `\$[\d,]+` over a character list:
a dollar sign followed by a maximal nonempty run of digits/commas. -/
def currencyScan : List Char → Option (List Char)
  | [] => none
  | c :: rest =>
    if c == '$' then
      let run := rest.takeWhile moneyChar
      if run.isEmpty then currencyScan rest else some (c :: run)
    else currencyScan rest

/-- `re.search(r'\$[\d,]+', s)` of apartment_tracker.py line 236. -/
def currencyMatch (s : String) : Option String :=
  (currencyScan s.toList).map (fun l => String.mk l)

/-- Image element: the attributes the code reads (`alt`, `src`, `data-src`). -/
structure ImgElem where
  alt : Option String
  src : Option String
  dataSrc : Option String
deriving DecidableEq

/-- Link element: the code reads only its `href` attribute. -/
structure LinkElem where
  href : Option String
deriving DecidableEq

/-- One `[data-testid="listing-card"]` element, embedded as the results of
every selector query `scrape_listings` performs on it (lines 161-270). -/
structure Card where
  /-- `a.ImageContainer-module__listingLink___sYIL9` -/
  linkPrimary : Option LinkElem
  /-- `a[href*="/rental/"]` -/
  linkRental : Option LinkElem
  /-- `a[href*="/building/"]` -/
  linkBuilding : Option LinkElem
  /-- `img.CardImage-module__cardImage__cirIn` -/
  imgPrimary : Option ImgElem
  /-- `img` -/
  imgAny : Option ImgElem
  /-- `[data-testid="listing-image"] img` -/
  imgTestid : Option ImgElem
  /-- texts of the first hits of the seven title selectors (line 201), in order -/
  titleSels : List (Option String)
  /-- texts of the first hits of the eight price selectors (line 220), in order -/
  priceSels : List (Option String)
  /-- texts of the `.BedsBathsSqft-module__text___lnveO` items inside the
  `.BedsBathsSqft-module__bedsBathsSqft___QFOK-` container; `none` when the
  container itself is absent -/
  bedsBaths : Option (List String)
deriving DecidableEq

/-- The listing dict built at lines 278-288 (a ListingRecord). -/
structure Listing where
  id : String
  title : String
  price : String
  address : String
  url : String
  bedrooms : String
  bathrooms : String
  sqft : String
  image_url : Option String
deriving DecidableEq

/-- generate_listing_id (lines 103-105): hash of `title_address_price`. -/
def generate_listing_id (hash : String → String)
    (title address price : String) : String :=
  hash (title ++ "_" ++ address ++ "_" ++ price)

/-- The fixed base origin used to absolutize relative links (line 174). -/
def base_origin : String := "https://streeteasy.com"

/-- URL resolution of lines 172-174: `link_elem.get('href','')`, prefixed
with the base origin unless it already starts with "http". -/
def mkFullUrl (href : Option String) : String :=
  let u := href.getD ""
  if strStartsWith u "http" then u else base_origin ++ u

/-- Link cascade of lines 164-170: primary class selector, then the
`/rental/` fallback, then the `/building/` fallback. -/
def selectLink (c : Card) : Option LinkElem :=
  match c.linkPrimary with
  | some e => some e
  | none =>
    match c.linkRental with
    | some e => some e
    | none => c.linkBuilding

/-- Image cascade of lines 179-182. -/
def selectImg (c : Card) : Option ImgElem :=
  match c.imgPrimary with
  | some e => some e
  | none =>
    match c.imgAny with
    | some e => some e
    | none => c.imgTestid

/-- Python's `a or b` over optional strings: an empty string is falsy. -/
def pyOr (a b : Option String) : Option String :=
  match a with
  | some s => if s.toList.isEmpty then b else some s
  | none => b

/-- Title from an image's alt text (line 191): the part before the first
occurrence of "image" when present, trimmed; else the whole text, trimmed. -/
def title_from_alt (alt : String) : String :=
  if containsStr alt "image" then strTrim (strBefore alt "image")
  else strTrim alt

/-- Title extraction of lines 184-214: the image-alt strategy first, then,
if the title is still the `N/A` sentinel, the cascade of generic title
selectors (first hit wins, text stripped). -/
def extract_title (c : Card) : String :=
  let fromImg :=
    match selectImg c with
    | none => "N/A"
    | some img =>
      let alt := img.alt.getD ""
      if alt.toList.isEmpty then "N/A" else title_from_alt alt
  if fromImg == "N/A" then
    match firstSome c.titleSels with
    | some t => strTrim t
    | none => "N/A"
  else fromImg

/-- Image URL of lines 193-196: `src or data-src`, absolutized when nonempty
and not already absolute. -/
def extract_image_url (c : Card) : Option String :=
  match selectImg c with
  | none => none
  | some img =>
    match pyOr img.src img.dataSrc with
    | none => none
    | some u =>
      if !u.toList.isEmpty && !(strStartsWith u "http") then
        some (base_origin ++ u)
      else some u

/-- The manual cleanup of line 241: `raw.split('base')[0].split('net')[0]
.split('rent')[0].strip()`. -/
def clean_price (raw : String) : String :=
  strTrim (strBefore (strBefore (strBefore raw "base") "net") "rent")

/-- Price reduction of lines 234-243, applied to the text of the first price
selector that matched: currency-regex match wins; else the manual cleanup,
kept only when it starts with a dollar sign. -/
def price_from_text (rawText : String) : String :=
  let raw := strTrim rawText
  match currencyMatch raw with
  | some m => m
  | none =>
    let p := clean_price raw
    if strStartsWith p "$" then p else "N/A"

/-- Price cascade of lines 219-244: first selector hit is processed and the
loop breaks; no hit leaves the `N/A` sentinel. -/
def extract_price (sels : List (Option String)) : String :=
  match firstSome sels with
  | some t => price_from_text t
  | none => "N/A"

/-- The street-type keywords of line 250. -/
def street_words : List String := ["street", "avenue", "road", "place", "drive"]

/-- Address inference of lines 249-254: only when the title is not the
sentinel, contains a street-type keyword (lower-cased substring test), and
splits into at least three whitespace tokens, the address is all tokens but
the last, joined by single spaces. -/
def extract_address (title : String) : String :=
  if title != "N/A"
      && street_words.any (fun w => containsStr (strLower title) w) then
    let parts := splitWs title
    if 3 ≤ parts.length then joinSpace parts.dropLast else "N/A"
  else "N/A"

/-- Classification of one beds/baths/sqft fragment (lines 263-270): keyword
containment on the lower-cased stripped text decides which field receives
the stripped text.  The area marker string is the literal of the source. -/
def classify_bbs (acc : String × String × String) (s : String) :
    String × String × String :=
  let text := strLower (strTrim s)
  if containsStr text "bed" then (strTrim s, acc.2.1, acc.2.2)
  else if containsStr text "bath" then (acc.1, strTrim s, acc.2.2)
  else if containsStr text "ft¬≤" then (acc.1, acc.2.1, strTrim s)
  else acc

/-- Beds/baths/sqft extraction of lines 256-270: all three fields default to
the sentinel; when the container is present its items are classified in
order. -/
def extractBBS : Option (List String) → String × String × String
  | none => ("N/A", "N/A", "N/A")
  | some items => items.foldl classify_bbs ("N/A", "N/A", "N/A")

/-- Per-card body of the `for card in apartment_cards` loop (lines 161-290):
`none` models the `continue` paths (no link element, or the final
essential-information check failing). -/
def parse_card (hash : String → String) (c : Card) : Option Listing :=
  match selectLink c with
  | none => none
  | some link =>
    let full_url := mkFullUrl link.href
    let title := extract_title c
    let image_url := extract_image_url c
    let price := extract_price c.priceSels
    let address := extract_address title
    let bbs := extractBBS c.bedsBaths
    if title == "N/A" || full_url == "" then none
    else
      some { id := generate_listing_id hash title address price,
             title := title, price := price, address := address,
             url := mkFullUrl link.href, bedrooms := bbs.1,
             bathrooms := bbs.2.1, sqft := bbs.2.2, image_url := image_url }

/-- Extraction over a whole page of cards: per-card failures contribute
nothing (the `continue` statements); an empty card list yields `[]`
(line 155-157). -/
def scrape_page (hash : String → String) (cards : List Card) : List Listing :=
  cards.filterMap (parse_card hash)

/-- A `requests.Response` as the code observes it: status code plus the page
content, already split into listing cards. -/
structure Response where
  status_code : Nat
  content : List Card
deriving DecidableEq

/-- Outcome of `get_page_with_retry`: the result (`Except.error` carries the
attempt count of the raised `RequestException`, line 138) together with the
User-Agent header in force at each attempt actually made, in order. -/
structure FetchOut where
  result : Except Nat Response
  uas : List String

/-- The alternative User-Agent pool of lines 125-129. -/
def user_agents : List String :=
  ["Mozilla/5.0 (Windows NT 10.0; Win64; x64) AppleWebKit/537.36 (KHTML, like Gecko) Chrome/120.0.0.0 Safari/537.36",
   "Mozilla/5.0 (Macintosh; Intel Mac OS X 10_15_7) AppleWebKit/605.1.15 (KHTML, like Gecko) Version/17.1 Safari/605.1.15",
   "Mozilla/5.0 (X11; Linux x86_64) AppleWebKit/537.36 (KHTML, like Gecko) Chrome/120.0.0.0 Safari/537.36"]

/-- The session's initial User-Agent (line 52). -/
def defaultUA : String :=
  "Mozilla/5.0 (Macintosh; Intel Mac OS X 10_15_7) AppleWebKit/537.36 (KHTML, like Gecko) Chrome/120.0.0.0 Safari/537.36"

/-- Whether an attempt outcome is a successful (status 200) response. -/
def isSuccess : Option Response → Bool
  | some r => r.status_code == 200
  | none => false

/-- The retry loop of `get_page_with_retry` (lines 107-138), one recursive
step per remaining iteration of `for attempt in range(max_retries)`.
`oc attempt` is the outcome of the request made at that attempt (`none` for
a transport-level `RequestException`), `choice attempt` the index
`random.choice` would pick there.  Status 200 returns at once; status 403
with attempts remaining swaps the session User-Agent before continuing;
every other outcome just continues.  An exhausted list raises, carrying the
attempt count. -/
def fetchGo (oc : Nat → Option Response)
    (choice : Nat → Fin user_agents.length) (n : Nat) :
    List Nat → String → FetchOut
  | [], _ => { result := Except.error n, uas := [] }
  | attempt :: rest, ua =>
    match oc attempt with
    | some r =>
      if r.status_code = 200 then { result := Except.ok r, uas := [ua] }
      else if r.status_code = 403 then
        if attempt < n - 1 then
          let o := fetchGo oc choice n rest (user_agents.get (choice attempt))
          { result := o.result, uas := ua :: o.uas }
        else
          let o := fetchGo oc choice n rest ua
          { result := o.result, uas := ua :: o.uas }
      else
        let o := fetchGo oc choice n rest ua
        { result := o.result, uas := ua :: o.uas }
    | none =>
      let o := fetchGo oc choice n rest ua
      { result := o.result, uas := ua :: o.uas }

/-- get_page_with_retry (lines 107-138): run the loop over
`range(max_retries)` starting from the session's current User-Agent. -/
def get_page_with_retry (oc : Nat → Option Response)
    (choice : Nat → Fin user_agents.length) (max_retries : Nat)
    (ua0 : String) : FetchOut :=
  fetchGo oc choice max_retries (List.range max_retries) ua0

/-- The persistent store: the rows of the `apartments` table. -/
abbrev Store := List Listing

/-- is_new_listing (lines 302-309): no row with this id exists yet. -/
def is_new_listing (store : Store) (listing_id : String) : Bool :=
  !(store.any (fun row => row.id == listing_id))

/-- save_listing (lines 311-328): `INSERT OR IGNORE` keyed by the `id`
primary key — a no-op when a row with the id exists, an append otherwise. -/
def save_listing (store : Store) (l : Listing) : Store :=
  if store.any (fun row => row.id == l.id) then store else store ++ [l]

/-- The dedup loop of lines 475-479: each candidate still unseen is appended
to the new-listings list and saved before the next candidate is checked. -/
def listing_loop : List Listing → Store → List Listing × Store
  | [], store => ([], store)
  | l :: rest, store =>
    if is_new_listing store l.id then
      let out := listing_loop rest (save_listing store l)
      (l :: out.1, out.2)
    else listing_loop rest store

/-- scrape_listings (lines 141-300) at the fetch boundary: a raised
`RequestException` is caught by the outer handler and yields `[]`
(lines 298-300); a returned response is parsed into listing records. -/
def scrape_listings (hash : String → String) (fo : FetchOut) : List Listing :=
  match fo.result with
  | Except.error _ => []
  | Except.ok r => scrape_page hash r.content

/-- check_for_new_listings (lines 467-485): scrape, return early with no new
records when nothing was scraped, else run the dedup loop.  The returned
pair is (new records handed to the notifier, resulting store). -/
def check_for_new_listings (hash : String → String) (fo : FetchOut)
    (store : Store) : List Listing × Store :=
  let listings := scrape_listings hash fo
  if listings.isEmpty then ([], store)
  else listing_loop listings store

/-- Sample card of the spec's §8 scenario: alt text
"120 East 5th Street 3A image 1 of 23", price text "Base: $2,500",
relative link "/rental/abc123". -/
def sampleCard : Card :=
  { linkPrimary := some { href := some "/rental/abc123" },
    linkRental := none, linkBuilding := none,
    imgPrimary := some { alt := some "120 East 5th Street 3A image 1 of 23",
                         src := some "/img/1.jpg", dataSrc := none },
    imgAny := none, imgTestid := none,
    titleSels := [],
    priceSels := [some "Base: $2,500"],
    bedsBaths := none }

/-- The record the code produces from `sampleCard` (hash kept symbolic as
the identity function). -/
def sampleListing : Listing :=
  { id := "120 East 5th Street 3A_120 East 5th Street_$2,500",
    title := "120 East 5th Street 3A", price := "$2,500",
    address := "120 East 5th Street",
    url := "https://streeteasy.com/rental/abc123",
    bedrooms := "N/A", bathrooms := "N/A", sqft := "N/A",
    image_url := some "https://streeteasy.com/img/1.jpg" }

/-- A second record with the same id as `sampleListing` but different other
fields (the C9 witness uses it). -/
def sampleListing2 : Listing :=
  { sampleListing with price := "$9,999", bedrooms := "2 beds" }

/-- C4 counterexample card: the title cascade yields "Oak Street", which
contains a street keyword but has only two whitespace tokens. -/
def cardOak : Card :=
  { linkPrimary := some { href := some "/rental/oak1" },
    linkRental := none, linkBuilding := none,
    imgPrimary := none, imgAny := none, imgTestid := none,
    titleSels := [some "Oak Street"],
    priceSels := [], bedsBaths := none }

/-- C6 witness card: a link and an image alt title, nothing else. -/
def cardTitleOnly : Card :=
  { linkPrimary := none,
    linkRental := some { href := some "/rental/xyz789" },
    linkBuilding := none,
    imgPrimary := none,
    imgAny := some { alt := some "The Dakota 4C", src := none,
                     dataSrc := none },
    imgTestid := none,
    titleSels := [], priceSels := [], bedsBaths := none }

/-- Attempt oracle of the spec's §8 retry scenario: rate-limited twice, then
successful. -/
def oc0 : Nat → Option Response := fun k =>
  if k < 2 then some { status_code := 403, content := [] }
  else some { status_code := 200, content := [] }

/-- Attempt oracle where every response is rate-limited. -/
def ocAll403 : Nat → Option Response := fun _ =>
  some { status_code := 403, content := [] }

/-- A concrete rotation-choice oracle (always the first pool entry). -/
def ch0 : Nat → Fin user_agents.length := fun _ => ⟨0, by decide⟩

/-- C1: `generate_listing_id` is a pure deterministic function of exactly
the (title, address, price) triple — equal triples give equal ids, within a
run or across runs (the embedding is stateless, and md5 is a fixed function
of its input) — and the id is the hash of the concatenation
`title ++ "_" ++ address ++ "_" ++ price`; at the spec's example triple the
hashed string is "120 East 5th Street 3A_120 East 5th Street_$2,500". -/
theorem C1_generate_listing_id_deterministic (hash : String → String)
    (t a p t2 a2 p2 : String) (ht : t = t2) (ha : a = a2) (hp : p = p2) :
    generate_listing_id hash t a p = generate_listing_id hash t2 a2 p2 ∧
    generate_listing_id hash t a p = hash (t ++ "_" ++ a ++ "_" ++ p) ∧
    generate_listing_id hash "120 East 5th Street 3A" "120 East 5th Street"
        "$2,500" =
      hash "120 East 5th Street 3A_120 East 5th Street_$2,500" := by
  subst ht; subst ha; subst hp
  exact ⟨rfl, rfl, congrArg hash (by decide)⟩

/-- Witness for C1 at a concrete triple and a concrete hash function. -/
theorem C1_witness :
    generate_listing_id (fun s => s) "a" "b" "$1" =
        generate_listing_id (fun s => s) "a" "b" "$1" ∧
    generate_listing_id (fun s => s) "a" "b" "$1" =
        (fun s : String => s) ("a" ++ "_" ++ "b" ++ "_" ++ "$1") ∧
    generate_listing_id (fun s => s) "120 East 5th Street 3A"
        "120 East 5th Street" "$2,500" =
      (fun s : String => s)
        "120 East 5th Street 3A_120 East 5th Street_$2,500" :=
  C1_generate_listing_id_deterministic (fun s => s) "a" "b" "$1" "a" "b" "$1"
    rfl rfl rfl

/-- C9: `save_listing` is idempotent per id: a second insert with the same
id — even with different other fields — leaves the store exactly as after
the first insert, and is a no-op rather than an error. -/
theorem C9_save_listing_idempotent (store : Store) (r r2 : Listing)
    (h : r2.id = r.id) :
    save_listing (save_listing store r) r2 = save_listing store r := by
  unfold save_listing
  by_cases hx : store.any (fun row => row.id == r.id) = true
  · rw [if_pos hx, if_pos (show store.any (fun row => row.id == r2.id) = true
      by rw [h]; exact hx)]
  · rw [if_neg hx,
      if_pos (show (store ++ [r]).any (fun row => row.id == r2.id) = true
        by simp [List.any_append, h])]

/-- Witness for C9: a fresh store, two records sharing an id but differing
in price and bedrooms. -/
theorem C9_witness :
    save_listing (save_listing [] sampleListing) sampleListing2 =
      save_listing [] sampleListing :=
  C9_save_listing_idempotent [] sampleListing sampleListing2 rfl

/-- What a successfully parsed card pins down about the emitted record. -/
theorem parse_card_some (hash : String → String) (c : Card) (r : Listing)
    (h : parse_card hash c = some r) :
    (extract_title c == "N/A") = false ∧
    r.title = extract_title c ∧
    r.address = extract_address (extract_title c) ∧
    r.price = extract_price c.priceSels ∧
    r.url ≠ "" ∧
    r.bedrooms = (extractBBS c.bedsBaths).1 ∧
    r.bathrooms = (extractBBS c.bedsBaths).2.1 ∧
    r.sqft = (extractBBS c.bedsBaths).2.2 := by
  cases hl : selectLink c with
  | none =>
    simp only [parse_card, hl] at h
    exact absurd h (by simp)
  | some link =>
    simp only [parse_card, hl] at h
    split at h
    · exact absurd h (by simp)
    · rename_i hguard
      simp only [Bool.or_eq_true, not_or, Bool.not_eq_true] at hguard
      rw [Option.some.injEq] at h
      subst h
      refine ⟨hguard.1, rfl, rfl, rfl, ?_, rfl, rfl, rfl⟩
      show mkFullUrl link.href ≠ ""
      intro hcon
      have h2 := hguard.2
      rw [hcon] at h2
      simp at h2

/-- C3: every record the extractor emits has a present (non-sentinel) title
and a present (nonempty) url; a candidate missing either is silently
dropped — `parse_card` is total and returns `none` for it, so it is neither
emitted nor raised as an error. -/
theorem C3_emitted_has_title_and_url (hash : String → String)
    (page : List Card) (r : Listing) (hr : r ∈ scrape_page hash page) :
    r.title ≠ "N/A" ∧ r.url ≠ "" := by
  obtain ⟨c, hc, hp⟩ := List.mem_filterMap.mp hr
  have h := parse_card_some hash c r hp
  constructor
  · rw [h.2.1]
    intro hcon
    have h1 := h.1
    rw [hcon] at h1
    simp at h1
  · exact h.2.2.2.2.1

/-- Witness for C3: the §8 sample card's record. -/
theorem C3_witness : sampleListing.title ≠ "N/A" ∧ sampleListing.url ≠ "" :=
  C3_emitted_has_title_and_url (fun s => s) [sampleCard] sampleListing
    (by decide)

/-- C4 (counterexample): the claim as stated fails. A record emitted with
title "Oak Street" contains the keyword "street", but its address is the
"N/A" sentinel, not the title minus its last token ("Oak"): line 253 of the
source additionally requires at least three whitespace tokens. -/
theorem C4_counterexample :
    ∃ r, r ∈ scrape_page (fun s => s) [cardOak] ∧
      containsStr (strLower r.title) "street" = true ∧
      joinSpace (splitWs r.title).dropLast = "Oak" ∧
      r.address ≠ "Oak" ∧ r.address = "N/A" := by decide

/-- C4 (amended): for every emitted record, when the title contains a
street-type keyword AND splits into at least three whitespace tokens, the
address is the space-join of all tokens but the last; otherwise — keyword
with fewer than three tokens, or no keyword at all — the address is the
"N/A" sentinel. -/
theorem C4_address_inference (hash : String → String) (page : List Card)
    (r : Listing) (hr : r ∈ scrape_page hash page) :
    (street_words.any (fun w => containsStr (strLower r.title) w) = true →
      (3 ≤ (splitWs r.title).length →
        r.address = joinSpace (splitWs r.title).dropLast) ∧
      ((splitWs r.title).length < 3 → r.address = "N/A")) ∧
    (street_words.any (fun w => containsStr (strLower r.title) w) = false →
      r.address = "N/A") := by
  obtain ⟨c, hc, hp⟩ := List.mem_filterMap.mp hr
  have h := parse_card_some hash c r hp
  have ht := h.1
  have haddr := h.2.2.1
  rw [← h.2.1] at haddr ht
  rw [haddr]
  have hbne : (r.title != "N/A") = true := by
    simp only [bne, ht, Bool.not_false]
  constructor
  · intro hkw
    simp only [extract_address, hbne, hkw, Bool.and_self, if_true]
    constructor
    · intro hlen
      rw [if_pos hlen]
    · intro hlen
      rw [if_neg (by omega)]
  · intro hkw
    simp only [extract_address, hbne, hkw, Bool.and_false]
    simp

/-- Witness for C4 at the §8 sample record (keyword present, five tokens). -/
theorem C4_witness :
    sampleListing.address = joinSpace (splitWs sampleListing.title).dropLast := by
  have h := C4_address_inference (fun s => s) [sampleCard] sampleListing
    (by decide)
  exact (h.1 (by decide)).1 (by decide)

/-- C5: the price of an emitted record is computed from the text of the
first price selector that matched: a currency-pattern match (dollar sign
followed by digits/commas) is taken verbatim; with no match, the text with
everything from the first qualifier word ("base"/"net"/"rent") on removed
and stripped is kept only when it starts with a dollar sign, else the price
is the "N/A" sentinel. -/
theorem C5_price_extraction (hash : String → String) (c : Card) (r : Listing)
    (h : parse_card hash c = some r) :
    (∀ t m, firstSome c.priceSels = some t →
      currencyMatch (strTrim t) = some m → r.price = m) ∧
    (∀ t, firstSome c.priceSels = some t →
      currencyMatch (strTrim t) = none →
      (strStartsWith (clean_price (strTrim t)) "$" = true →
          r.price = clean_price (strTrim t)) ∧
      (strStartsWith (clean_price (strTrim t)) "$" = false →
          r.price = "N/A")) := by
  have hp := (parse_card_some hash c r h).2.2.2.1
  constructor
  · intro t m hfs hcm
    rw [hp]
    simp only [extract_price, hfs, price_from_text, hcm]
  · intro t hfs hcm
    constructor
    · intro hd
      rw [hp]
      simp only [extract_price, hfs, price_from_text, hcm, hd, if_true]
    · intro hd
      rw [hp]
      simp only [extract_price, hfs, price_from_text, hcm, hd]
      simp

/-- Witness for C5: the §8 sample card, price text "Base: $2,500". -/
theorem C5_witness : sampleListing.price = "$2,500" :=
  (C5_price_extraction (fun s => s) sampleCard sampleListing (by decide)).1
    "Base: $2,500" "$2,500" rfl (by decide)

/-- A resolved url is never the empty string: it either already starts with
"http" or gets the nonempty base origin prefixed. -/
theorem mkFullUrl_ne_empty (href : Option String) : mkFullUrl href ≠ "" := by
  simp only [mkFullUrl]
  split_ifs with hs
  · intro hcon
    rw [hcon] at hs
    exact absurd hs (by decide)
  · intro hcon
    have h2 := congrArg List.length (congrArg String.data hcon)
    rw [String.data_append, List.length_append] at h2
    rw [show base_origin.data.length = 22 from rfl] at h2
    rw [show ("" : String).data.length = 0 from rfl] at h2
    omega

/-- C6: a card with a link and an extractable title but no price selector
hit and no beds/baths/sqft container is still emitted — not dropped — and
its price, bedrooms, bathrooms and sqft fields all hold the "N/A"
sentinel. -/
theorem C6_partial_card_emitted (hash : String → String) (c : Card)
    (hlink : (selectLink c).isSome = true)
    (htitle : (extract_title c == "N/A") = false)
    (hprice : firstSome c.priceSels = none)
    (hbbs : c.bedsBaths = none) :
    ∃ r, parse_card hash c = some r ∧ r.price = "N/A" ∧
      r.bedrooms = "N/A" ∧ r.bathrooms = "N/A" ∧ r.sqft = "N/A" := by
  obtain ⟨link, hl⟩ := Option.isSome_iff_exists.mp hlink
  have hurl : (mkFullUrl link.href == "") = false := by
    have hne := mkFullUrl_ne_empty link.href
    cases hb : (mkFullUrl link.href == "") with
    | false => rfl
    | true => exact absurd (eq_of_beq hb) hne
  refine ⟨{ id := generate_listing_id hash (extract_title c)
              (extract_address (extract_title c)) (extract_price c.priceSels),
            title := extract_title c,
            price := extract_price c.priceSels,
            address := extract_address (extract_title c),
            url := mkFullUrl link.href,
            bedrooms := (extractBBS c.bedsBaths).1,
            bathrooms := (extractBBS c.bedsBaths).2.1,
            sqft := (extractBBS c.bedsBaths).2.2,
            image_url := extract_image_url c }, ?_, ?_, ?_, ?_, ?_⟩
  · simp only [parse_card, hl]
    rw [if_neg (by simp [htitle, hurl])]
  · show extract_price c.priceSels = "N/A"
    simp only [extract_price, hprice]
  · show (extractBBS c.bedsBaths).1 = "N/A"
    rw [hbbs]
    rfl
  · show (extractBBS c.bedsBaths).2.1 = "N/A"
    rw [hbbs]
    rfl
  · show (extractBBS c.bedsBaths).2.2 = "N/A"
    rw [hbbs]
    rfl

/-- Witness for C6: a card with only a link and an image-alt title. -/
theorem C6_witness :
    ∃ r, parse_card (fun s => s) cardTitleOnly = some r ∧ r.price = "N/A" ∧
      r.bedrooms = "N/A" ∧ r.bathrooms = "N/A" ∧ r.sqft = "N/A" :=
  C6_partial_card_emitted (fun s => s) cardTitleOnly (by decide) (by decide)
    rfl rfl

/-- Saving any listing preserves the presence of an id in the store. -/
theorem any_save (store : Store) (l : Listing) (i : String)
    (h : store.any (fun row => row.id == i) = true) :
    (save_listing store l).any (fun row => row.id == i) = true := by
  unfold save_listing
  split
  · exact h
  · rw [List.any_append]
    simp [h]

/-- Saving cannot make an absent id present other than the saved one. -/
theorem any_save_rev (store : Store) (a : Listing) (i : String)
    (h : (save_listing store a).any (fun row => row.id == i) = false) :
    store.any (fun row => row.id == i) = false := by
  unfold save_listing at h
  split at h
  · exact h
  · rw [List.any_append] at h
    exact (Bool.or_eq_false_iff.mp h).1

/-- After saving a listing, its id is present. -/
theorem save_self_seen (store : Store) (l : Listing) :
    (save_listing store l).any (fun row => row.id == l.id) = true := by
  unfold save_listing
  split
  · assumption
  · rw [List.any_append]
    simp

/-- The dedup loop never removes an id from the store. -/
theorem any_loop_keep (ls : List Listing) (store : Store) (i : String)
    (h : store.any (fun row => row.id == i) = true) :
    ((listing_loop ls store).2).any (fun row => row.id == i) = true := by
  induction ls generalizing store with
  | nil => exact h
  | cons l rest ih =>
    simp only [listing_loop]
    split
    · exact ih _ (any_save store l i h)
    · exact ih _ h

/-- After one dedup loop, every processed listing's id is in the store. -/
theorem loop_covers (ls : List Listing) (store : Store) :
    ∀ l ∈ ls, ((listing_loop ls store).2).any (fun row => row.id == l.id)
      = true := by
  induction ls generalizing store with
  | nil => intro l hl; cases hl
  | cons a rest ih =>
    intro l hl
    simp only [listing_loop]
    split
    · rcases List.mem_cons.mp hl with rfl | hl2
      · exact any_loop_keep rest _ _ (save_self_seen store l)
      · exact ih _ l hl2
    · rename_i hnew
      rcases List.mem_cons.mp hl with rfl | hl2
      · have hseen : store.any (fun row => row.id == l.id) = true := by
          simpa [is_new_listing] using hnew
        exact any_loop_keep rest store _ hseen
      · exact ih store l hl2

/-- A dedup loop over listings whose ids are all already present inserts
nothing and reports nothing new. -/
theorem loop_stale (ls : List Listing) (store : Store)
    (h : ∀ l ∈ ls, store.any (fun row => row.id == l.id) = true) :
    listing_loop ls store = ([], store) := by
  induction ls with
  | nil => rfl
  | cons a rest ih =>
    have hseen := h a (List.mem_cons_self a rest)
    have hnot : is_new_listing store a.id = false := by
      simp [is_new_listing, hseen]
    simp only [listing_loop]
    rw [if_neg (by simp [hnot])]
    exact ih (fun l hl => h l (List.mem_cons_of_mem a hl))

/-- C2: running the cycle a second time on identical fetched page content,
with no store mutation in between, yields an empty new-record sequence and
inserts nothing into the store. -/
theorem C2_second_cycle_is_empty (hash : String → String) (fo : FetchOut)
    (store : Store) :
    check_for_new_listings hash fo
        ((check_for_new_listings hash fo store).2) =
      ([], (check_for_new_listings hash fo store).2) := by
  simp only [check_for_new_listings]
  by_cases he : (scrape_listings hash fo).isEmpty = true
  · rw [if_pos he, if_pos he]
  · rw [if_neg he, if_neg he]
    exact loop_stale _ _ (loop_covers _ store)

/-- Every reported-new listing was absent from the initial store. -/
theorem loop_fresh (ls : List Listing) (store : Store) :
    ∀ l ∈ (listing_loop ls store).1, is_new_listing store l.id = true := by
  induction ls generalizing store with
  | nil => intro l hl; simp [listing_loop] at hl
  | cons a rest ih =>
    intro l hl
    simp only [listing_loop] at hl
    split at hl
    · rename_i hnew
      have hl2 : l = a ∨ l ∈ (listing_loop rest (save_listing store a)).1 :=
        List.mem_cons.mp hl
      rcases hl2 with rfl | hl2
      · exact hnew
      · have h2 := ih (save_listing store a) l hl2
        unfold is_new_listing at h2 ⊢
        rw [Bool.not_eq_eq_eq_not] at h2 ⊢
        exact any_save_rev store a l.id h2
    · exact ih store l hl

/-- The new-record list of one dedup loop has pairwise distinct ids. -/
theorem loop_nodup (ls : List Listing) (store : Store) :
    ((listing_loop ls store).1.map Listing.id).Nodup := by
  induction ls generalizing store with
  | nil => simp [listing_loop]
  | cons a rest ih =>
    simp only [listing_loop]
    split
    · show ((a :: (listing_loop rest (save_listing store a)).1).map
        Listing.id).Nodup
      rw [List.map_cons, List.nodup_cons]
      constructor
      · intro hmem
        obtain ⟨l, hl, hid⟩ := List.mem_map.mp hmem
        have hfresh := loop_fresh rest (save_listing store a) l hl
        rw [show Listing.id l = l.id from rfl] at hid
        rw [is_new_listing, hid, save_self_seen store a] at hfresh
        simp at hfresh
      · exact ih _
    · exact ih _

/-- C10: within one cycle, the new-record list handed to the notifier has
pairwise distinct ids — a listing is persisted before the next candidate is
checked, so two same-page candidates with equal (title, address, price)
contribute at most one record. -/
theorem C10_new_list_ids_nodup (hash : String → String) (fo : FetchOut)
    (store : Store) :
    (((check_for_new_listings hash fo store).1).map Listing.id).Nodup := by
  simp only [check_for_new_listings]
  split
  · simp
  · exact loop_nodup _ _

/-- Case analysis of one iteration of the retry loop: success returns at
once; 403 with attempts remaining recurses under the freshly chosen pool
User-Agent; every other outcome (403 on the final attempt, another failure
status, a transport error) recurses under the unchanged User-Agent. -/
theorem fetchGo_cons_shape (oc : Nat → Option Response)
    (ch : Nat → Fin user_agents.length) (n a : Nat) (rest : List Nat)
    (ua : String) :
    (∃ r, oc a = some r ∧ r.status_code = 200 ∧
      (fetchGo oc ch n (a :: rest) ua).result = Except.ok r ∧
      (fetchGo oc ch n (a :: rest) ua).uas = [ua]) ∨
    (∃ r, oc a = some r ∧ r.status_code = 403 ∧ a < n - 1 ∧
      (fetchGo oc ch n (a :: rest) ua).result =
        (fetchGo oc ch n rest (user_agents.get (ch a))).result ∧
      (fetchGo oc ch n (a :: rest) ua).uas =
        ua :: (fetchGo oc ch n rest (user_agents.get (ch a))).uas) ∨
    (isSuccess (oc a) = false ∧
      (∀ r, oc a = some r → r.status_code = 403 → ¬ a < n - 1) ∧
      (fetchGo oc ch n (a :: rest) ua).result =
        (fetchGo oc ch n rest ua).result ∧
      (fetchGo oc ch n (a :: rest) ua).uas =
        ua :: (fetchGo oc ch n rest ua).uas) := by
  cases ho : oc a with
  | none =>
    right; right
    refine ⟨rfl, ?_, ?_, ?_⟩
    · intro r hr
      exact absurd hr (by simp)
    · simp [fetchGo, ho]
    · simp [fetchGo, ho]
  | some r =>
    by_cases h2 : r.status_code = 200
    · left
      refine ⟨r, rfl, h2, ?_, ?_⟩ <;> simp [fetchGo, ho, h2]
    · by_cases h4 : r.status_code = 403
      · by_cases hl : a < n - 1
        · right; left
          refine ⟨r, rfl, h4, hl, ?_, ?_⟩ <;> simp [fetchGo, ho, h2, h4, hl]
        · right; right
          refine ⟨by simp [isSuccess, h2], ?_, ?_, ?_⟩
          · intro r2 hr2 h403
            cases Option.some.inj hr2
            exact hl
          · simp [fetchGo, ho, h2, h4, hl]
          · simp [fetchGo, ho, h2, h4, hl]
      · right; right
        refine ⟨by simp [isSuccess, h2], ?_, ?_, ?_⟩
        · intro r2 hr2 h403
          cases Option.some.inj hr2
          exact absurd h403 h4
        · simp [fetchGo, ho, h2, h4]
        · simp [fetchGo, ho, h2, h4]

/-- The User-Agent used on the first attempt of a nonempty attempt list is
the starting one. -/
theorem fetchGo_head (oc : Nat → Option Response)
    (ch : Nat → Fin user_agents.length) (n b : Nat) (rest : List Nat)
    (u : String) :
    (fetchGo oc ch n (b :: rest) u).uas[0]? = some u := by
  rcases fetchGo_cons_shape oc ch n b rest u with
    ⟨r, _, _, _, huas⟩ | ⟨r, _, _, _, _, huas⟩ | ⟨_, _, _, huas⟩ <;>
    simp [huas]

/-- The loop makes at most one attempt per planned iteration. -/
theorem fetchGo_len (oc : Nat → Option Response)
    (ch : Nat → Fin user_agents.length) (n : Nat) :
    ∀ (l : List Nat) (ua : String),
      (fetchGo oc ch n l ua).uas.length ≤ l.length := by
  intro l
  induction l with
  | nil => intro ua; simp [fetchGo]
  | cons a rest ih =>
    intro ua
    rcases fetchGo_cons_shape oc ch n a rest ua with
      ⟨r, _, _, _, huas⟩ | ⟨r, _, _, _, _, huas⟩ | ⟨_, _, _, huas⟩
    · rw [huas]
      simp only [List.length_cons, List.length_nil]
      omega
    · rw [huas]
      simp only [List.length_cons]
      exact Nat.succ_le_succ (ih _)
    · rw [huas]
      simp only [List.length_cons]
      exact Nat.succ_le_succ (ih _)

/-- When no attempt succeeds, the loop runs every planned attempt and ends
in the error carrying `n`. -/
theorem fetchGo_exhaust (oc : Nat → Option Response)
    (ch : Nat → Fin user_agents.length) (n : Nat) :
    ∀ (l : List Nat) (ua : String), (∀ a ∈ l, isSuccess (oc a) = false) →
      (fetchGo oc ch n l ua).result = Except.error n ∧
      (fetchGo oc ch n l ua).uas.length = l.length := by
  intro l
  induction l with
  | nil => intro ua _; exact ⟨rfl, rfl⟩
  | cons a rest ih =>
    intro ua h
    rcases fetchGo_cons_shape oc ch n a rest ua with
      ⟨r, ho, h2, _, _⟩ | ⟨r, ho, _, _, hres, huas⟩ | ⟨_, _, hres, huas⟩
    · have hs := h a (List.mem_cons_self a rest)
      rw [ho] at hs
      simp [isSuccess, h2] at hs
    · have hrest := ih (user_agents.get (ch a))
        (fun b hb => h b (List.mem_cons_of_mem a hb))
      rw [hres, huas]
      simp only [List.length_cons]
      rw [hrest.2]
      exact ⟨hrest.1, rfl⟩
    · have hrest := ih ua (fun b hb => h b (List.mem_cons_of_mem a hb))
      rw [hres, huas]
      simp only [List.length_cons]
      rw [hrest.2]
      exact ⟨hrest.1, rfl⟩

/-- The loop returns at the first successful attempt: with attempt `k + j`
successful and all earlier attempts unsuccessful, the result is that
response, after exactly `j + 1` attempts. -/
theorem fetchGo_first_success (oc : Nat → Option Response)
    (ch : Nat → Fin user_agents.length) (n : Nat) :
    ∀ (m k j : Nat) (ua : String) (r : Response), j < m →
      oc (k + j) = some r → r.status_code = 200 →
      (∀ i, i < j → isSuccess (oc (k + i)) = false) →
      (fetchGo oc ch n (List.range' k m) ua).result = Except.ok r ∧
      (fetchGo oc ch n (List.range' k m) ua).uas.length = j + 1 := by
  intro m
  induction m with
  | zero => intro k j ua r hj; exact absurd hj (by omega)
  | succ m ih =>
    intro k j ua r hj ho hs hpre
    rw [List.range'_succ]
    cases j with
    | zero =>
      rw [Nat.add_zero] at ho
      rcases fetchGo_cons_shape oc ch n k (List.range' (k+1) m) ua with
        ⟨r0, ho0, h200, hres, huas⟩ | ⟨r0, ho0, h403, _, _, _⟩ |
        ⟨hsf, _, _, _⟩
      · rw [ho0] at ho
        cases Option.some.inj ho
        rw [hres, huas]
        exact ⟨rfl, rfl⟩
      · rw [ho0] at ho
        cases Option.some.inj ho
        omega
      · rw [ho] at hsf
        simp [isSuccess, hs] at hsf
    | succ j2 =>
      have hns : isSuccess (oc k) = false := by
        have h0 := hpre 0 (by omega)
        rwa [Nat.add_zero] at h0
      rcases fetchGo_cons_shape oc ch n k (List.range' (k+1) m) ua with
        ⟨r0, ho0, h200, _, _⟩ | ⟨r0, ho0, _, _, hres, huas⟩ |
        ⟨_, _, hres, huas⟩
      · rw [ho0] at hns
        simp [isSuccess, h200] at hns
      · have harg : oc (k + 1 + j2) = some r := by
          rw [show k + 1 + j2 = k + (j2 + 1) from by omega]
          exact ho
        have hpre2 : ∀ i, i < j2 → isSuccess (oc (k + 1 + i)) = false := by
          intro i hi
          have h3 := hpre (i + 1) (by omega)
          rwa [show k + (i + 1) = k + 1 + i from by omega] at h3
        have hrec := ih (k+1) j2 (user_agents.get (ch k)) r (by omega)
          harg hs hpre2
        rw [hres, huas]
        simp only [List.length_cons]
        rw [hrec.2]
        exact ⟨hrec.1, rfl⟩
      · have harg : oc (k + 1 + j2) = some r := by
          rw [show k + 1 + j2 = k + (j2 + 1) from by omega]
          exact ho
        have hpre2 : ∀ i, i < j2 → isSuccess (oc (k + 1 + i)) = false := by
          intro i hi
          have h3 := hpre (i + 1) (by omega)
          rwa [show k + (i + 1) = k + 1 + i from by omega] at h3
        have hrec := ih (k+1) j2 ua r (by omega) harg hs hpre2
        rw [hres, huas]
        simp only [List.length_cons]
        rw [hrec.2]
        exact ⟨hrec.1, rfl⟩

/-- After a 403 at an attempt that actually happened, with attempts still
remaining, the next attempt runs under the pool User-Agent chosen there. -/
theorem fetchGo_rotate (oc : Nat → Option Response)
    (ch : Nat → Fin user_agents.length) (n : Nat) :
    ∀ (m k j : Nat) (ua : String) (r : Response), k + m = n →
      (fetchGo oc ch n (List.range' k m) ua).uas[j]?.isSome = true →
      oc (k + j) = some r → r.status_code = 403 → k + j + 1 < n →
      (fetchGo oc ch n (List.range' k m) ua).uas[j+1]? =
        some (user_agents.get (ch (k + j))) := by
  intro m
  induction m with
  | zero =>
    intro k j ua r _ hsome
    rw [show List.range' k 0 = [] from rfl] at hsome
    simp [fetchGo] at hsome
  | succ m ih =>
    intro k j ua r hinv hsome ho hs hlt
    rw [List.range'_succ] at hsome ⊢
    rcases fetchGo_cons_shape oc ch n k (List.range' (k+1) m) ua with
      ⟨r0, ho0, h200, hres, huas⟩ | ⟨r0, ho0, h403, hl, hres, huas⟩ |
      ⟨hsf, hno, hres, huas⟩
    · cases j with
      | zero =>
        rw [Nat.add_zero] at ho
        rw [ho0] at ho
        cases Option.some.inj ho
        omega
      | succ j2 =>
        rw [huas] at hsome
        simp at hsome
    · cases j with
      | zero =>
        rw [huas, Nat.add_zero]
        rw [List.getElem?_cons_succ]
        obtain ⟨m2, rfl⟩ : ∃ m2, m = m2 + 1 := ⟨m - 1, by omega⟩
        rw [List.range'_succ]
        exact fetchGo_head oc ch n (k+1) _ _
      | succ j2 =>
        rw [huas] at hsome ⊢
        rw [List.getElem?_cons_succ] at hsome ⊢
        rw [show k + (j2 + 1) = k + 1 + j2 from by omega] at ho ⊢
        exact ih (k+1) j2 (user_agents.get (ch k)) r (by omega) hsome ho hs
          (by omega)
    · cases j with
      | zero =>
        rw [Nat.add_zero] at ho
        have := hno r ho hs
        omega
      | succ j2 =>
        rw [huas] at hsome ⊢
        rw [List.getElem?_cons_succ] at hsome ⊢
        rw [show k + (j2 + 1) = k + 1 + j2 from by omega] at ho ⊢
        exact ih (k+1) j2 ua r (by omega) hsome ho hs (by omega)

/-- A transport error or a failure status other than 403 is retried under
the unchanged User-Agent. -/
theorem fetchGo_noRotate (oc : Nat → Option Response)
    (ch : Nat → Fin user_agents.length) (n : Nat) :
    ∀ (m k j : Nat) (ua u : String), k + m = n →
      (fetchGo oc ch n (List.range' k m) ua).uas[j]? = some u →
      (oc (k + j) = none ∨
        ∃ r, oc (k + j) = some r ∧ r.status_code ≠ 200 ∧
          r.status_code ≠ 403) →
      k + j + 1 < n →
      (fetchGo oc ch n (List.range' k m) ua).uas[j+1]? = some u := by
  intro m
  induction m with
  | zero =>
    intro k j ua u _ hsome
    rw [show List.range' k 0 = [] from rfl] at hsome
    simp [fetchGo] at hsome
  | succ m ih =>
    intro k j ua u hinv hsome hfail hlt
    rw [List.range'_succ] at hsome ⊢
    rcases fetchGo_cons_shape oc ch n k (List.range' (k+1) m) ua with
      ⟨r0, ho0, h200, hres, huas⟩ | ⟨r0, ho0, h403, hl, hres, huas⟩ |
      ⟨hsf, hno, hres, huas⟩
    · cases j with
      | zero =>
        rw [Nat.add_zero] at hfail
        rcases hfail with hnone | ⟨r, hr, hne200, _⟩
        · rw [ho0] at hnone
          exact absurd hnone (by simp)
        · rw [ho0] at hr
          cases Option.some.inj hr
          exact absurd h200 hne200
      | succ j2 =>
        rw [huas] at hsome
        simp at hsome
    · cases j with
      | zero =>
        rw [Nat.add_zero] at hfail
        rcases hfail with hnone | ⟨r, hr, _, hne403⟩
        · rw [ho0] at hnone
          exact absurd hnone (by simp)
        · rw [ho0] at hr
          cases Option.some.inj hr
          exact absurd h403 hne403
      | succ j2 =>
        rw [huas] at hsome ⊢
        rw [List.getElem?_cons_succ] at hsome ⊢
        rw [show k + (j2 + 1) = k + 1 + j2 from by omega] at hfail
        exact ih (k+1) j2 (user_agents.get (ch k)) u (by omega) hsome hfail
          (by omega)
    · cases j with
      | zero =>
        rw [huas] at hsome ⊢
        rw [List.getElem?_cons_zero] at hsome
        cases Option.some.inj hsome
        rw [List.getElem?_cons_succ]
        obtain ⟨m2, rfl⟩ : ∃ m2, m = m2 + 1 := ⟨m - 1, by omega⟩
        rw [List.range'_succ]
        exact fetchGo_head oc ch n (k+1) _ _
      | succ j2 =>
        rw [huas] at hsome ⊢
        rw [List.getElem?_cons_succ] at hsome ⊢
        rw [show k + (j2 + 1) = k + 1 + j2 from by omega] at hfail
        exact ih (k+1) j2 ua u (by omega) hsome hfail (by omega)

/-- Every pool pick is an element of the fixed pool. -/
theorem pool_get_mem (i : Fin user_agents.length) :
    user_agents.get i ∈ user_agents := List.get_mem user_agents i.1 i.2

/-- C7: the fetch contract of `get_page_with_retry` — at most `max_retries`
attempts are made (default 3 in the source); the first successful (200)
response is returned immediately, after exactly as many attempts as it took;
a rate-limit (403) response at an attempt that happened, with attempts
remaining, makes the next attempt run under an identity token sampled from
the fixed pool instead of failing; a transport error or any other failure
status is retried under the unchanged token; and when every attempt fails
the call ends in the error value carrying the attempt count. -/
theorem C7_fetch_retry_contract (oc : Nat → Option Response)
    (ch : Nat → Fin user_agents.length) (n : Nat) (ua0 : String) :
    (get_page_with_retry oc ch n ua0).uas.length ≤ n ∧
    (∀ j r, j < n → oc j = some r → r.status_code = 200 →
      (∀ i, i < j → isSuccess (oc i) = false) →
      (get_page_with_retry oc ch n ua0).result = Except.ok r ∧
      (get_page_with_retry oc ch n ua0).uas.length = j + 1) ∧
    (∀ j r, (get_page_with_retry oc ch n ua0).uas[j]?.isSome = true →
      oc j = some r → r.status_code = 403 → j + 1 < n →
      (get_page_with_retry oc ch n ua0).uas[j+1]? =
        some (user_agents.get (ch j)) ∧
      user_agents.get (ch j) ∈ user_agents) ∧
    (∀ j u, (get_page_with_retry oc ch n ua0).uas[j]? = some u →
      (oc j = none ∨ ∃ r, oc j = some r ∧ r.status_code ≠ 200 ∧
        r.status_code ≠ 403) →
      j + 1 < n →
      (get_page_with_retry oc ch n ua0).uas[j+1]? = some u) ∧
    ((∀ i, i < n → isSuccess (oc i) = false) →
      (get_page_with_retry oc ch n ua0).result = Except.error n ∧
      (get_page_with_retry oc ch n ua0).uas.length = n) := by
  refine ⟨?_, ?_, ?_, ?_, ?_⟩
  · have h := fetchGo_len oc ch n (List.range n) ua0
    rwa [List.length_range] at h
  · intro j r hj ho hs hpre
    unfold get_page_with_retry
    rw [List.range_eq_range']
    have h := fetchGo_first_success oc ch n n 0 j ua0 r hj
      (by rwa [Nat.zero_add]) hs
      (by intro i hi; rw [Nat.zero_add]; exact hpre i hi)
    exact h
  · intro j r hsome ho hs hlt
    refine ⟨?_, pool_get_mem (ch j)⟩
    unfold get_page_with_retry at hsome ⊢
    rw [List.range_eq_range'] at hsome ⊢
    have h := fetchGo_rotate oc ch n n 0 j ua0 r (by omega) hsome
      (by rwa [Nat.zero_add]) hs (by omega)
    rwa [Nat.zero_add] at h
  · intro j u hsome hfail hlt
    unfold get_page_with_retry at hsome ⊢
    rw [List.range_eq_range'] at hsome ⊢
    exact fetchGo_noRotate oc ch n n 0 j ua0 u (by omega) hsome
      (by rwa [Nat.zero_add]) (by omega)
  · intro h
    have hex := fetchGo_exhaust oc ch n (List.range n) ua0
      (fun a ha => h a (List.mem_range.mp ha))
    unfold get_page_with_retry
    rw [hex.2, List.length_range]
    exact ⟨hex.1, rfl⟩

/-- Witness for C7: the §8 scenario — rate-limited on attempts 1 and 2,
successful on attempt 3 — run through the contract theorem: the success is
returned, and the token used on attempt 2 came from the pool. -/
theorem C7_witness :
    (get_page_with_retry oc0 ch0 3 defaultUA).result =
        Except.ok { status_code := 200, content := [] } ∧
    (get_page_with_retry oc0 ch0 3 defaultUA).uas[1]? =
        some (user_agents.get (ch0 0)) := by
  have h := C7_fetch_retry_contract oc0 ch0 3 defaultUA
  constructor
  · exact (h.2.1 2 { status_code := 200, content := [] } (by decide) rfl rfl
      (by decide)).1
  · exact (h.2.2.1 0 { status_code := 403, content := [] } (by decide) rfl
      rfl (by decide)).1

/-- C8: when the fetcher exhausts every attempt without a success (for
example every response is rate-limited), the cycle yields an empty
new-record sequence without raising — the exception is caught inside
`scrape_listings` — and the store is left exactly as it was. -/
theorem C8_failed_fetch_cycle_noop (hash : String → String)
    (oc : Nat → Option Response) (ch : Nat → Fin user_agents.length)
    (n : Nat) (ua0 : String) (store : Store)
    (h : ∀ i, i < n → isSuccess (oc i) = false) :
    check_for_new_listings hash (get_page_with_retry oc ch n ua0) store =
      ([], store) := by
  have hres : (get_page_with_retry oc ch n ua0).result = Except.error n :=
    (fetchGo_exhaust oc ch n (List.range n) ua0
      (fun a ha => h a (List.mem_range.mp ha))).1
  simp only [check_for_new_listings, scrape_listings, hres]
  rfl

/-- Witness for C8: three attempts, all answered 403. -/
theorem C8_witness :
    check_for_new_listings (fun s => s)
        (get_page_with_retry ocAll403 ch0 3 defaultUA) [] = ([], []) :=
  C8_failed_fetch_cycle_noop (fun s => s) ocAll403 ch0 3 defaultUA []
    (by decide)
